import Mathlib

/-!
Verification of the Plantoidz/UI gallery core (src/modules/content-loader.js).

The repository file `content-loader.js` contains two generations of the
loader: a rate-limited contract-based version (`loadNFTs` with
`RATE_LIMIT_CONFIG`, first document) and a subgraph-based version
(second document).  Both share the `TOKEN_URI_CACHE`, the cross-reference
matcher in `loadUnrevealedNFTs`, the pagination state and `changePage`.

This file shallowly embeds those functions in Lean:
JavaScript `Map`s become association lists with `Map` semantics,
numbers become `Nat`, `null`/`undefined` become `Option`, and the
asynchronous batch loop of `loadNFTs` is embedded as the sequence of
scheduler events its synchronous code emits.
-/

namespace PlantoidUI

/-! ## JavaScript primitives -/

/-- JS `Map.prototype.get`, for a `Map` modelled as an association list in
insertion order: the value stored at `k`, or `none` (JS `undefined`). -/
def jsMapGet (m : List (String × α)) (k : String) : Option α :=
  (m.find? (fun p => p.1 = k)).map Prod.snd

/-- JS `Map.prototype.set`: replaces the value in place when the key is
already present, otherwise appends the new entry (JS `Map` keeps
insertion order). -/
def jsMapSet (m : List (String × α)) (k : String) (v : α) : List (String × α) :=
  if m.any (fun p => p.1 = k) then
    m.map (fun p => if p.1 = k then (k, v) else p)
  else
    m ++ [(k, v)]

/-- JS `String.prototype.includes`: `pat` occurs contiguously in `s`. -/
def jsIncludes (s pat : String) : Bool :=
  (List.range (s.data.length + 1)).any (fun i => pat.data.isPrefixOf (s.data.drop i))

/-- Truthiness of a JS string value that may be `null`/`undefined`
(`Option.none`): `null`, `undefined` and `""` are falsy. -/
def jsTruthy : Option String → Bool
  | none => false
  | some s => s ≠ ""

/-- The expression `x || null` for a nullable string `x`: a falsy value (including the
empty string) collapses to `null`. -/
def jsOrNull (x : Option String) : Option String :=
  if jsTruthy x then x else none

/-- JS `String.prototype.endsWith`: `s` ends with `post`. -/
def endsWithJs (s post : String) : Bool :=
  post.data.isSuffixOf s.data

/-! ## TOKEN_URI_CACHE (content-loader.js lines 80–146 and 1051–1117;
the two copies are textually identical) -/

/-- The value stored by `TOKEN_URI_CACHE.set`:
`{ tokenURI, timestamp: Date.now(), network, contractAddress }`. -/
structure CacheEntry where
  tokenURI : String
  timestamp : Nat
  network : String
  contractAddress : String
deriving DecidableEq, Repr

/-- The cache `Map`, keyed by the string produced by `getCacheKey`. -/
abbrev Cache := List (String × CacheEntry)

namespace TOKEN_URI_CACHE

/-- Source `getCacheKey(contractAddress, tokenId, networkKey)`:
the template string `networkKey + "_" + contractAddress.toLowerCase() + "_" + tokenId`. -/
def getCacheKey (contractAddress : String) (tokenId : Nat) (networkKey : String) : String :=
  networkKey ++ "_" ++ contractAddress.toLower ++ "_" ++ toString tokenId

/-- Source `get(contractAddress, tokenId, networkKey)`: looks the key up and
returns `cached.tokenURI` when an entry exists (a JS object is always
truthy), else `null`. -/
def get (contractAddress : String) (tokenId : Nat) (networkKey : String) (m : Cache) :
    Option String :=
  match jsMapGet m (getCacheKey contractAddress tokenId networkKey) with
  | some cached => some cached.tokenURI
  | none => none

/-- Source `set(contractAddress, tokenId, networkKey, tokenURI)`; `now` stands
for `Date.now()`. -/
def set (contractAddress : String) (tokenId : Nat) (networkKey : String)
    (tokenURI : String) (now : Nat) (m : Cache) : Cache :=
  jsMapSet m (getCacheKey contractAddress tokenId networkKey)
    ⟨tokenURI, now, networkKey, contractAddress.toLower⟩

/-- Result of `clearNetwork`: the cache after the deletions, the count
written to `console.log`, and the JS return value.  The source computes
`cleared` and logs it but has no `return` statement, so the function
returns `undefined`, modelled as `none`. -/
structure ClearNetworkResult where
  cache : Cache
  loggedCleared : Nat
  returned : Option Nat
deriving DecidableEq

/-- Source `clearNetwork(networkKey)`: iterates over the entries and deletes
every entry whose stored `network` field equals `networkKey`. -/
def clearNetwork (networkKey : String) (m : Cache) : ClearNetworkResult where
  cache := m.filter (fun p => p.2.network ≠ networkKey)
  loggedCleared := m.countP (fun p => p.2.network = networkKey)
  returned := none

/-- The `network` key an entry is counted under by `getStats`:
`value.network || 'unknown'` (only the empty string is a falsy string). -/
def statsTag (e : CacheEntry) : String :=
  if e.network = "" then "unknown" else e.network

/-- The statistics object built by `getStats`.  The `byNetwork` JS
object is modelled as a total function, reading an absent key as 0
(`stats.byNetwork[network] || 0`). -/
structure CacheStats where
  totalSize : Nat
  byNetwork : String → Nat
  keys : List String

/-- Source `getStats()`: total size, per-network entry counts built by the
fold `stats.byNetwork[network] = (stats.byNetwork[network] || 0) + 1`,
and the list of keys. -/
def getStats (m : Cache) : CacheStats where
  totalSize := m.length
  byNetwork :=
    m.foldl (fun acc p n => if n = statsTag p.2 then acc n + 1 else acc n) (fun _ => 0)
  keys := m.map Prod.fst

end TOKEN_URI_CACHE

/-! Supporting lemmas for the cache. -/

theorem find?_key_map_update {m : List (String × α)} {k k2 : String} {v : α}
    (h : k ≠ k2) :
    (m.map (fun p => if p.1 = k then (k, v) else p)).find? (fun p => decide (p.1 = k2))
      = m.find? (fun p => decide (p.1 = k2)) := by
  induction m with
  | nil => rfl
  | cons p m ih =>
    by_cases hp : p.1 = k
    · have h2 : ¬ p.1 = k2 := hp ▸ h
      simp [List.find?_cons, hp, h, h2, ih]
    · have h3 : ¬ k2 = k := fun hh => h hh.symm
      by_cases h2 : p.1 = k2 <;> simp [List.find?_cons, hp, h2, h3, ih]

theorem jsMapGet_jsMapSet_ne {m : List (String × α)} {k k2 : String} {v : α}
    (h : k ≠ k2) : jsMapGet (jsMapSet m k v) k2 = jsMapGet m k2 := by
  unfold jsMapGet jsMapSet
  by_cases hc : m.any (fun p => p.1 = k)
  · simp only [hc, if_true]
    rw [find?_key_map_update h]
  · simp only [hc, if_false, List.find?_append]
    have hone : List.find? (fun p => decide (p.1 = k2)) [(k, v)] = none := by
      simp [List.find?, h]
    simp [hone]

theorem string_append_right_cancel {a b t : String} (h : a ++ t = b ++ t) : a = b := by
  have hd : a.data ++ t.data = b.data ++ t.data := by
    rw [← String.data_append, ← String.data_append, h]
  exact congrArg String.mk (List.append_cancel_right hd)

/-- Distinct network keys always produce distinct cache keys for the
same contract address and token id. -/
theorem getCacheKey_network_injective {n1 n2 c : String} {i : Nat} (h : n1 ≠ n2) :
    TOKEN_URI_CACHE.getCacheKey c i n1 ≠ TOKEN_URI_CACHE.getCacheKey c i n2 := by
  intro heq
  unfold TOKEN_URI_CACHE.getCacheKey at heq
  apply h
  have h1 : n1 ++ ("_" ++ c.toLower ++ "_" ++ toString i)
      = n2 ++ ("_" ++ c.toLower ++ "_" ++ toString i) := by
    simpa [String.append_assoc] using heq
  exact string_append_right_cancel h1

/-- C4 — network isolation of the URI cache: a `set` performed under
network `N1` is invisible to a `get` for the same contract address and
token index performed under a different network `N2`. -/
theorem cache_network_isolation (m : Cache) (c : String) (i : Nat)
    (n1 n2 : String) (uri : String) (now : Nat) (h : n1 ≠ n2) :
    TOKEN_URI_CACHE.get c i n2 (TOKEN_URI_CACHE.set c i n1 uri now m)
      = TOKEN_URI_CACHE.get c i n2 m := by
  unfold TOKEN_URI_CACHE.get TOKEN_URI_CACHE.set
  rw [jsMapGet_jsMapSet_ne (getCacheKey_network_injective h)]

/-- Witness for C4 at concrete inputs: storing under `sepolia` leaves a
`mainnet` lookup of the same contract and token unanswered. -/
theorem cache_network_isolation_witness :
    TOKEN_URI_CACHE.get "0xAbC" 7 "mainnet"
        (TOKEN_URI_CACHE.set "0xAbC" 7 "sepolia" "ipfs://x" 0 []) = none :=
  (cache_network_isolation [] "0xAbC" 7 "sepolia" "mainnet" "ipfs://x" 0
    (by decide)).trans rfl

theorem getStats_byNetwork_fold (m : Cache) (acc : String → Nat) (n : String) :
    (m.foldl (fun acc p n => if n = TOKEN_URI_CACHE.statsTag p.2 then acc n + 1 else acc n) acc) n
      = acc n + m.countP (fun p => TOKEN_URI_CACHE.statsTag p.2 = n) := by
  induction m generalizing acc with
  | nil => simp
  | cons p m ih =>
    simp only [List.foldl_cons, List.countP_cons, ih]
    by_cases hn : n = TOKEN_URI_CACHE.statsTag p.2
    · simp [hn]
      omega
    · have hn2 : ¬ TOKEN_URI_CACHE.statsTag p.2 = n := fun hh => hn hh.symm
      simp [hn, hn2]

theorem getStats_byNetwork (m : Cache) (n : String) :
    (TOKEN_URI_CACHE.getStats m).byNetwork n
      = m.countP (fun p => TOKEN_URI_CACHE.statsTag p.2 = n) := by
  simpa using getStats_byNetwork_fold m (fun _ => 0) n

/-- Counterexample to C6 as stated: `clearNetwork` removes one matching
entry here, but its JS return value is `undefined` (`none`), not the
count `1` — the source computes and logs `cleared` without returning it. -/
theorem clearNetwork_returns_undefined :
    (TOKEN_URI_CACHE.clearNetwork "sepolia"
        [("sepolia_0xc_1", ⟨"ipfs://u1", 0, "sepolia", "0xc"⟩)]).loggedCleared = 1
    ∧ (TOKEN_URI_CACHE.clearNetwork "sepolia"
        [("sepolia_0xc_1", ⟨"ipfs://u1", 0, "sepolia", "0xc"⟩)]).returned ≠ some 1 := by
  constructor
  · rfl
  · intro h
    simp [TOKEN_URI_CACHE.clearNetwork] at h

/-- C6 (amended) — `clearNetwork(N)` deletes exactly the entries whose
stored network tag is `N`, logs that count (it is what `getStats`
reported for `N`), and returns `undefined`; afterwards `getStats`
reports zero for `N` and unchanged counts for every other network.
The hypothesis excludes empty-string network tags, which the code never
stores (`set` always receives the current network key). -/
theorem clearNetwork_spec (m : Cache) (n : String)
    (hm : ∀ p ∈ m, p.2.network ≠ "") :
    (TOKEN_URI_CACHE.clearNetwork n m).returned = none
    ∧ (TOKEN_URI_CACHE.clearNetwork n m).loggedCleared
        = (TOKEN_URI_CACHE.getStats m).byNetwork n
    ∧ (TOKEN_URI_CACHE.getStats (TOKEN_URI_CACHE.clearNetwork n m).cache).byNetwork n = 0
    ∧ (∀ n2, n2 ≠ n →
        (TOKEN_URI_CACHE.getStats (TOKEN_URI_CACHE.clearNetwork n m).cache).byNetwork n2
          = (TOKEN_URI_CACHE.getStats m).byNetwork n2)
    ∧ (TOKEN_URI_CACHE.getStats (TOKEN_URI_CACHE.clearNetwork n m).cache).totalSize
        + (TOKEN_URI_CACHE.clearNetwork n m).loggedCleared
        = (TOKEN_URI_CACHE.getStats m).totalSize := by
  have htag : ∀ p ∈ m, TOKEN_URI_CACHE.statsTag p.2 = p.2.network := by
    intro p hp
    simp [TOKEN_URI_CACHE.statsTag, hm p hp]
  refine ⟨rfl, ?_, ?_, ?_, ?_⟩
  · rw [getStats_byNetwork]
    simp only [TOKEN_URI_CACHE.clearNetwork]
    exact (List.countP_congr (fun p hp => by simp [htag p hp])).symm
  · rw [getStats_byNetwork]
    simp only [TOKEN_URI_CACHE.clearNetwork]
    rw [List.countP_eq_zero]
    intro p hp
    have hmem := List.mem_of_mem_filter hp
    have hne := List.of_mem_filter hp
    simp only [htag p hmem]
    simpa using hne
  · intro n2 hn2
    rw [getStats_byNetwork, getStats_byNetwork]
    simp only [TOKEN_URI_CACHE.clearNetwork]
    rw [List.countP_filter]
    apply List.countP_congr
    intro p hp
    simp only [htag p hp]
    by_cases h1 : p.2.network = n2
    · have : p.2.network ≠ n := h1 ▸ hn2
      simp [h1, this, hn2]
    · simp [h1]
  · simp only [TOKEN_URI_CACHE.clearNetwork, TOKEN_URI_CACHE.getStats]
    rw [← List.countP_eq_length_filter]
    have hlen := List.length_eq_countP_add_countP
      (fun p : String × CacheEntry => decide (p.2.network = n)) m
    have hc : m.countP (fun p => decide (p.2.network ≠ n))
        = m.countP (fun a => decide (¬ decide (a.2.network = n) = true)) := by
      apply List.countP_congr
      intro p _
      simp
    simp only [ne_eq] at hc ⊢
    omega

/-- A concrete two-network cache used to witness `clearNetwork_spec`. -/
def sampleCache : Cache :=
  [("sepolia_0xc_1", ⟨"ipfs://u1", 0, "sepolia", "0xc"⟩),
   ("mainnet_0xc_1", ⟨"ipfs://u2", 0, "mainnet", "0xc"⟩),
   ("sepolia_0xc_2", ⟨"ipfs://u3", 0, "sepolia", "0xc"⟩)]

/-- Witness for C6 (amended) at a concrete cache. -/
theorem clearNetwork_spec_witness :
    (TOKEN_URI_CACHE.clearNetwork "sepolia" sampleCache).returned = none
    ∧ (TOKEN_URI_CACHE.getStats
        (TOKEN_URI_CACHE.clearNetwork "sepolia" sampleCache).cache).byNetwork "sepolia" = 0
    ∧ (TOKEN_URI_CACHE.getStats
        (TOKEN_URI_CACHE.clearNetwork "sepolia" sampleCache).cache).byNetwork "mainnet"
        = (TOKEN_URI_CACHE.getStats sampleCache).byNetwork "mainnet" := by
  have h := clearNetwork_spec sampleCache "sepolia" (by decide)
  exact ⟨h.1, h.2.2.1, h.2.2.2.1 "mainnet" (by decide)⟩

/-! ## Cross-reference matcher (`loadUnrevealedNFTs`,
content-loader.js lines 710–750 and, identically, 1583–1623) -/

/-- A record of the metadata subgraph: `{id, revealedUri, revealedSignature}`.
The two string fields are nullable in the subgraph response. -/
structure SeedMetadata where
  id : String
  revealedUri : Option String
  revealedSignature : Option String
deriving DecidableEq, Repr

/-- A record of the main subgraph: `{id, tokenId, revealed, holder}`.
`tokenId` is numeric; the code turns it into its decimal string with
`toString()` and back with `parseInt`. -/
structure Seed where
  id : String
  tokenId : Nat
  revealed : Bool
  holder : String
deriving DecidableEq, Repr

/-- A combined record: the seed annotated with the matched metadata. -/
structure CombinedSeed where
  id : String
  tokenId : Nat
  revealed : Bool
  holder : String
  revealedUri : Option String
  revealedSignature : Option String
deriving DecidableEq, Repr

/-- The expression `"0x" + parseInt(tokenIdStr).toString(16)`: the `0x`-prefixed
lowercase hex form of the token id. -/
def hexForm (tokenId : Nat) : String :=
  "0x" ++ String.mk (Nat.toDigits 16 tokenId)

/-- The predicate passed to `metadataSignatures.find(...)`: for one
secondary record `md` the four strategies are tried in source order —
exact decimal id, `"_" + decimal` suffix, `"_" + hex` suffix, exact
hex id — returning at the first that holds. -/
def metadataMatches (tokenId : Nat) (md : SeedMetadata) : Bool :=
  let tokenIdStr := toString tokenId
  if md.id == tokenIdStr then true
  else if endsWithJs md.id ("_" ++ tokenIdStr) then true
  else
    let hexTok := hexForm tokenId
    if endsWithJs md.id ("_" ++ hexTok) then true
    else if md.id == hexTok then true
    else false

/-- Source `metadataSignatures.find(md => ...)`: the first secondary record,
in list order, for which any strategy succeeds. -/
def findMetadata (tokenId : Nat) (mds : List SeedMetadata) : Option SeedMetadata :=
  mds.find? (metadataMatches tokenId)

/-- The record built for one seed by `combinedData = mainSeeds.map(...)`:
`{...seed, revealedUri: metadata?.revealedUri || null,
revealedSignature: metadata?.revealedSignature || null}`. -/
def combineSeed (mds : List SeedMetadata) (s : Seed) : CombinedSeed :=
  match findMetadata s.tokenId mds with
  | some md => ⟨s.id, s.tokenId, s.revealed, s.holder,
      jsOrNull md.revealedUri, jsOrNull md.revealedSignature⟩
  | none => ⟨s.id, s.tokenId, s.revealed, s.holder, none, none⟩

/-- Source `combinedData` for the whole primary list. -/
def combinedData (mds : List SeedMetadata) (seeds : List Seed) : List CombinedSeed :=
  seeds.map (combineSeed mds)

/-- Counterexample to C1 as stated: for primary tokenId 7 and secondary
records `[{id:"0xabc_7"}, {id:"0x7"}, {id:"7"}]` the matcher returns the
first record in list order that satisfies any strategy — the suffix
match `"0xabc_7"` — not the exact-decimal record `"7"`: record order
takes precedence over strategy priority. -/
theorem matcher_priority_counterexample :
    findMetadata 7 [⟨"0xabc_7", none, none⟩, ⟨"0x7", none, none⟩, ⟨"7", none, none⟩]
      = some ⟨"0xabc_7", none, none⟩
    ∧ findMetadata 7 [⟨"0xabc_7", none, none⟩, ⟨"0x7", none, none⟩, ⟨"7", none, none⟩]
      ≠ some ⟨"7", none, none⟩ := by
  constructor
  · rfl
  · decide

/-- C1 (amended) — the matcher scans secondary records in list order and
selects the first record for which any of the four strategies succeeds;
within one record the strategies are the stated four, tried in the fixed
source order; a found record always satisfies the predicate; and on the
spec's example the suffix record `"0xabc_7"` is the one matched. -/
theorem matcher_first_record_wins :
    (∀ (tokenId : Nat) (md : SeedMetadata) (mds : List SeedMetadata),
      findMetadata tokenId (md :: mds)
        = if metadataMatches tokenId md then some md else findMetadata tokenId mds)
    ∧ (∀ (tokenId : Nat) (md : SeedMetadata),
        metadataMatches tokenId md
          = (md.id == toString tokenId
             || endsWithJs md.id ("_" ++ toString tokenId)
             || endsWithJs md.id ("_" ++ hexForm tokenId)
             || md.id == hexForm tokenId))
    ∧ (∀ (tokenId : Nat) (mds : List SeedMetadata) (md : SeedMetadata),
        findMetadata tokenId mds = some md → metadataMatches tokenId md = true ∧ md ∈ mds)
    ∧ findMetadata 7 [⟨"0xabc_7", none, none⟩, ⟨"0x7", none, none⟩, ⟨"7", none, none⟩]
      = some ⟨"0xabc_7", none, none⟩ := by
  refine ⟨?_, ?_, ?_, rfl⟩
  · intro t md mds
    rw [findMetadata, List.find?_cons]
    cases h : metadataMatches t md <;> simp [findMetadata, h]
  · intro t md
    simp only [metadataMatches]
    cases h1 : (md.id == toString t) <;>
      cases h2 : endsWithJs md.id ("_" ++ toString t) <;>
        cases h3 : endsWithJs md.id ("_" ++ hexForm t) <;>
          cases h4 : (md.id == hexForm t) <;>
            simp [h1, h2, h3, h4]
  · intro t mds md h
    exact ⟨List.find?_some h, List.mem_of_find?_eq_some h⟩

/-! ## Reveal eligibility and sorting (`loadUnrevealedNFTs`,
lines 756–761 / 1629–1642, and the storing step at 797–807 / 1653–1661) -/

/-- The condition `seed.revealedSignature && seed.revealedSignature !== "0x"` as a
truth value: `null` and `""` are falsy, otherwise the signature must
differ from the empty-bytes sentinel `"0x"`. -/
def hasSignatureCheck (sig : Option String) : Bool :=
  match sig with
  | none => false
  | some s => if s = "" then false else decide (s ≠ "0x")

/-- The condition `notRevealed && hasSignature`: the eligibility pre-check applied to
every combined record (before the optional on-chain staleness check of
the first implementation). -/
def eligibleForReveal (s : CombinedSeed) : Bool :=
  !s.revealed && hasSignatureCheck s.revealedSignature

/-- The records that pass the pre-check, in input order. -/
def unrevealedWithSignatures (combined : List CombinedSeed) : List CombinedSeed :=
  combined.filter eligibleForReveal

/-- C7 — a combined record is in the reveal-display set iff its
`revealed` flag is false and its matched signature is present, non-empty
and not `"0x"`; including the spec's three concrete cases. -/
theorem reveal_eligibility :
    (∀ s : CombinedSeed, eligibleForReveal s = true ↔
      (s.revealed = false
        ∧ ∃ sig, s.revealedSignature = some sig ∧ sig ≠ "" ∧ sig ≠ "0x"))
    ∧ (∀ (combined : List CombinedSeed) (s : CombinedSeed),
        s ∈ unrevealedWithSignatures combined ↔ s ∈ combined ∧ eligibleForReveal s = true)
    ∧ eligibleForReveal ⟨"s1", 1, false, "h", none, some "0x"⟩ = false
    ∧ eligibleForReveal ⟨"s2", 2, true, "h", none, some "0xdead"⟩ = false
    ∧ eligibleForReveal ⟨"s3", 3, false, "h", none, some "0xdead"⟩ = true := by
  refine ⟨?_, ?_, by decide, by decide, by decide⟩
  · intro s
    unfold eligibleForReveal hasSignatureCheck
    cases hsig : s.revealedSignature with
    | none => simp
    | some str =>
      by_cases h1 : str = "" <;> simp [h1]
  · intro combined s
    simp [unrevealedWithSignatures, List.mem_filter]

/-- The storing step of the contract-based `loadUnrevealedNFTs` (first
document, lines 756–807): each record passing the pre-check is kept
unless the on-chain URI check confirms it as already revealed
(`currentUri === seed.revealedUri`), a throwing chain call keeps the
record, and the kept records are stored in pagination state in input
order — no sorting step exists in this version.  `chain` abstracts the
external `getCachedTokenURI` call (`none` models a throw). -/
def storedRevealDataV1 (chain : CombinedSeed → Option String)
    (combined : List CombinedSeed) : List CombinedSeed :=
  combined.filter (fun s => eligibleForReveal s &&
    (match chain s with
     | some uri => !(s.revealedUri == some uri)
     | none => true))

/-- The storing step of the subgraph-based `loadUnrevealedNFTs` (second
document, lines 1629–1661): the records passing the pre-check, sorted by
`(a, b) => parseInt(b.tokenId) - parseInt(a.tokenId)` — descending
tokenId; JS `Array.prototype.sort` is stable, modelled by `mergeSort`. -/
def storedRevealDataV2 (combined : List CombinedSeed) : List CombinedSeed :=
  (combined.filter eligibleForReveal).mergeSort
    (fun a b => decide (b.tokenId ≤ a.tokenId))

/-- Counterexample to C8 as stated: the contract-based implementation
stores the eligible records without sorting, so two eligible records
arriving in ascending tokenId order (1 before 2) are stored ascending,
violating descending order. -/
theorem reveal_sort_counterexample :
    storedRevealDataV1 (fun _ => none)
        [⟨"s1", 1, false, "h", none, some "0xdead"⟩,
         ⟨"s2", 2, false, "h", none, some "0xbeef"⟩]
      = [⟨"s1", 1, false, "h", none, some "0xdead"⟩,
         ⟨"s2", 2, false, "h", none, some "0xbeef"⟩]
    ∧ ¬ List.Pairwise (fun a b : CombinedSeed => b.tokenId ≤ a.tokenId)
        (storedRevealDataV1 (fun _ => none)
          [⟨"s1", 1, false, "h", none, some "0xdead"⟩,
           ⟨"s2", 2, false, "h", none, some "0xbeef"⟩]) := by
  constructor
  · rfl
  · intro h
    have h2 : List.Pairwise (fun a b : CombinedSeed => b.tokenId ≤ a.tokenId)
        [⟨"s1", 1, false, "h", none, some "0xdead"⟩,
         ⟨"s2", 2, false, "h", none, some "0xbeef"⟩] := h
    rw [List.pairwise_cons] at h2
    have := h2.1 _ (List.mem_cons_self _ _)
    simp at this

/-- C8 (amended) — in the subgraph-based implementation the stored list
is a permutation of the eligible records sorted by tokenId descending:
for all positions `j < k` the tokenId at `j` is at least the tokenId at
`k`.  (The contract-based implementation stores the eligible records in
input order without sorting; see the counterexample.) -/
theorem reveal_sorted_descending (combined : List CombinedSeed) :
    List.Pairwise (fun a b : CombinedSeed => b.tokenId ≤ a.tokenId)
      (storedRevealDataV2 combined)
    ∧ (storedRevealDataV2 combined).Perm (combined.filter eligibleForReveal)
    ∧ ∀ (j k : Fin (storedRevealDataV2 combined).length), j < k →
        ((storedRevealDataV2 combined).get k).tokenId
          ≤ ((storedRevealDataV2 combined).get j).tokenId := by
  have hpw : List.Pairwise (fun a b : CombinedSeed => b.tokenId ≤ a.tokenId)
      (storedRevealDataV2 combined) := by
    have hs := @List.sorted_mergeSort CombinedSeed
      (fun a b : CombinedSeed => decide (b.tokenId ≤ a.tokenId))
      (fun a b c hab hbc => by
        simp only [decide_eq_true_eq] at hab hbc ⊢
        omega)
      (fun a b => by
        simp only [Bool.or_eq_true, decide_eq_true_eq]
        omega)
      (combined.filter eligibleForReveal)
    exact hs.imp (fun h => by simpa using h)
  refine ⟨hpw, List.mergeSort_perm _ _, ?_⟩
  intro j k hjk
  exact List.pairwise_iff_get.mp hpw j k hjk

/-! ## Rate-limited fetch pipeline (`loadNFTs`, content-loader.js
lines 383–482, first document) -/

/-- Source `RATE_LIMIT_CONFIG` (lines 70–76). -/
structure RateLimitConfig where
  maxConcurrent : Nat
  delayBetweenBatches : Nat
  batchSize : Nat
  retryDelay : Nat
  randomDelay : Nat
deriving DecidableEq, Repr

/-- The configured values: 3 concurrent, 1000 ms between batches,
5 per batch, 2000 ms retry delay, 200 ms max jitter. -/
def RATE_LIMIT_CONFIG : RateLimitConfig :=
  ⟨3, 1000, 5, 2000, 200⟩

/-- The inner loop `for (let i = batchStart; i >= batchEnd && i >= 1; i--)`:
token indices from `batchStart` down while at least `lo` (and at least 1;
the `i >= 1` guard is subsumed by the `0` base case). -/
def countdown : Nat → Nat → List Nat
  | 0, _ => []
  | i + 1, lo => if i + 1 ≥ lo then (i + 1) :: countdown i lo else []

/-- The body of the outer loop
`for (let batchStart = totalNFTs; batchStart >= 1; batchStart -= batchSize)`
with `batchEnd = Math.max(1, batchStart - batchSize + 1)` (lines 415–420):
the successive token-index batches, highest first.  The first argument is
the current `batchStart`; the `fuel` argument only bounds the number of
iterations so that the recursion is structural — `batchStart` itself
shrinks by `batchSize ≥ 1` each iteration, so `fuel = batchStart`
suffices and is what `loadNFTsBatches` passes. -/
def loadNFTsBatchesGo (bs : Nat) : Nat → Nat → List (List Nat)
  | 0, _ => []
  | _ + 1, 0 => []
  | m + 1, fuel + 1 =>
      countdown (m + 1) (max 1 (m + 1 - bs + 1))
        :: loadNFTsBatchesGo bs (m + 1 - bs) fuel

/-- The batch structure of the rate-limited `loadNFTs` for a total
supply of `N`, with batch size `bs`.  A `batchSize` of `0` cannot occur
(the config fixes 5; the JS loop would not terminate), and every theorem
assumes `0 < bs`. -/
def loadNFTsBatches (bs N : Nat) : List (List Nat) :=
  loadNFTsBatchesGo bs N N

/-- Modelled from the spec: "chunk the task list into groups of that
size" — consecutive chunks, the last possibly smaller.  As above, `fuel`
only makes the recursion structural; `chunksOf` passes the list length,
which suffices for any positive chunk size. -/
def chunksOfGo (size : Nat) : List α → Nat → List (List α)
  | [], _ => []
  | _ :: _, 0 => []
  | x :: xs, fuel + 1 =>
      ((x :: xs).take size) :: chunksOfGo size ((x :: xs).drop size) fuel

/-- Consecutive chunks of `size` elements, the last possibly smaller. -/
def chunksOf (size : Nat) (l : List α) : List (List α) :=
  chunksOfGo size l l.length

theorem countdown_eq_nil {n lo : Nat} (h : n < lo) : countdown n lo = [] := by
  cases n with
  | zero => rfl
  | succ m => simp [countdown, show ¬ m + 1 ≥ lo by omega]

theorem countdown_length (n lo : Nat) (hlo : 1 ≤ lo) :
    (countdown n lo).length = n + 1 - lo := by
  induction n with
  | zero => simp [countdown]; omega
  | succ n ih =>
    by_cases hn : n + 1 ≥ lo
    · rw [countdown, if_pos hn]
      simp only [List.length_cons, ih]
      omega
    · rw [countdown, if_neg hn]
      simp only [List.length_nil]
      omega

theorem take_countdown (k n lo : Nat) (hlo : 1 ≤ lo) :
    (countdown n lo).take k = countdown n (max lo (n + 1 - k)) := by
  induction n generalizing k with
  | zero => cases k <;> simp [countdown]
  | succ n ih =>
    by_cases hn : n + 1 ≥ lo
    · cases k with
      | zero =>
        rw [List.take_zero]
        exact (countdown_eq_nil (by omega)).symm
      | succ j =>
        have harg : n + 1 + 1 - (j + 1) = n + 1 - j := by omega
        rw [countdown, if_pos hn, List.take_succ_cons, ih j, harg]
        have hcond : n + 1 ≥ max lo (n + 1 - j) := by omega
        rw [countdown, if_pos hcond]
    · rw [countdown, if_neg hn, List.take_nil]
      exact (countdown_eq_nil (by omega)).symm

theorem drop_countdown (k n lo : Nat) :
    (countdown n lo).drop k = countdown (n - k) lo := by
  induction n generalizing k with
  | zero => simp [countdown]
  | succ n ih =>
    by_cases hn : n + 1 ≥ lo
    · cases k with
      | zero => rfl
      | succ j =>
        have harg : n + 1 - (j + 1) = n - j := by omega
        rw [countdown, if_pos hn, List.drop_succ_cons, ih j, harg]
    · rw [countdown, if_neg hn, List.drop_nil]
      exact (countdown_eq_nil (by omega)).symm

theorem chunksOfGo_fuel (s : Nat) (hs : 0 < s) :
    ∀ (f1 : Nat) (l : List α) (f2 : Nat), l.length ≤ f1 → l.length ≤ f2 →
      chunksOfGo s l f1 = chunksOfGo s l f2 := by
  intro f1
  induction f1 with
  | zero =>
    intro l f2 h1 h2
    have hl : l = [] := List.eq_nil_of_length_eq_zero (by omega)
    subst hl
    cases f2 <;> rfl
  | succ f ih =>
    intro l f2 h1 h2
    match l with
    | [] => cases f2 <;> rfl
    | x :: xs =>
      obtain ⟨g, rfl⟩ : ∃ g, f2 = g + 1 := by
        refine ⟨f2 - 1, ?_⟩
        simp only [List.length_cons] at h2
        omega
      show ((x :: xs).take s) :: chunksOfGo s ((x :: xs).drop s) f
          = ((x :: xs).take s) :: chunksOfGo s ((x :: xs).drop s) g
      congr 1
      apply ih
      · simp only [List.length_drop, List.length_cons]
        simp only [List.length_cons] at h1
        omega
      · simp only [List.length_drop, List.length_cons]
        simp only [List.length_cons] at h2
        omega

theorem loadNFTsBatchesGo_eq_chunksOf (b : Nat) :
    ∀ (fuel N : Nat), N ≤ fuel →
      loadNFTsBatchesGo (b + 1) N fuel = chunksOf (b + 1) (countdown N 1) := by
  intro fuel
  induction fuel with
  | zero =>
    intro N hN
    have : N = 0 := by omega
    subst this
    rfl
  | succ fuel ih =>
    intro N hN
    match N with
    | 0 => rfl
    | n + 1 =>
      have hcd : countdown (n + 1) 1 = (n + 1) :: countdown n 1 := by
        rw [countdown, if_pos (by omega)]
      have hlen : (countdown (n + 1) 1).length = n + 1 :=
        (countdown_length (n + 1) 1 le_rfl).trans (by omega)
      show countdown (n + 1) (max 1 (n + 1 - (b + 1) + 1))
            :: loadNFTsBatchesGo (b + 1) (n + 1 - (b + 1)) fuel
          = chunksOf (b + 1) (countdown (n + 1) 1)
      rw [chunksOf, hlen, hcd]
      show _ = ((n + 1) :: countdown n 1).take (b + 1)
          :: chunksOfGo (b + 1) (((n + 1) :: countdown n 1).drop (b + 1)) n
      rw [← hcd, take_countdown (b + 1) (n + 1) 1 le_rfl,
        drop_countdown (b + 1) (n + 1) 1]
      congr 1
      · congr 1
        omega
      · rw [chunksOfGo_fuel (b + 1) (by omega) n (countdown (n + 1 - (b + 1)) 1)
            ((countdown (n + 1 - (b + 1)) 1).length) ?hle le_rfl]
        · rw [ih (n + 1 - (b + 1)) (by omega), chunksOf]
        · rw [countdown_length _ 1 le_rfl]
          omega

theorem chunksOfGo_flatten (b : Nat) :
    ∀ (fuel : Nat) (l : List α), l.length ≤ fuel →
      (chunksOfGo (b + 1) l fuel).flatten = l := by
  intro fuel
  induction fuel with
  | zero =>
    intro l hl
    have : l = [] := List.eq_nil_of_length_eq_zero (by omega)
    subst this
    rfl
  | succ f ih =>
    intro l hl
    match l with
    | [] => rfl
    | x :: xs =>
      show (((x :: xs).take (b + 1)) :: chunksOfGo (b + 1) ((x :: xs).drop (b + 1)) f).flatten
          = x :: xs
      rw [List.flatten_cons, ih ((x :: xs).drop (b + 1)) ?hle, List.take_append_drop]
      simp only [List.length_drop, List.length_cons]
      simp only [List.length_cons] at hl
      omega

theorem chunksOf_flatten (b : Nat) (l : List α) : (chunksOf (b + 1) l).flatten = l :=
  chunksOfGo_flatten b l.length l le_rfl

/-- C5 — the pipeline partitions the descending index range `N..1` into
consecutive batches of `batchSize`, highest indices first, the last
batch possibly smaller: the batch list is exactly the chunking of the
descending range, its concatenation restores that range, and for
`batchSize = 5, totalSupply = 12` the batches are `{12..8}, {7..3},
{2..1}` in that order. -/
theorem batch_partition (bs N : Nat) (hb : 0 < bs) :
    loadNFTsBatches bs N = chunksOf bs (countdown N 1)
    ∧ (loadNFTsBatches bs N).flatten = countdown N 1
    ∧ loadNFTsBatches RATE_LIMIT_CONFIG.batchSize 12
        = [[12, 11, 10, 9, 8], [7, 6, 5, 4, 3], [2, 1]] := by
  obtain ⟨b, rfl⟩ : ∃ b, bs = b + 1 := ⟨bs - 1, by omega⟩
  have hmain : loadNFTsBatches (b + 1) N = chunksOf (b + 1) (countdown N 1) :=
    loadNFTsBatchesGo_eq_chunksOf b N N le_rfl
  refine ⟨hmain, ?_, by decide⟩
  rw [hmain]
  exact chunksOf_flatten b _

/-- Witness for C5 at the spec's concrete configuration. -/
theorem batch_partition_witness :
    loadNFTsBatches 5 12 = chunksOf 5 (countdown 12 1)
    ∧ (loadNFTsBatches 5 12).flatten = countdown 12 1
    ∧ loadNFTsBatches RATE_LIMIT_CONFIG.batchSize 12
        = [[12, 11, 10, 9, 8], [7, 6, 5, 4, 3], [2, 1]] :=
  batch_partition 5 12 (by decide)

/-! ## Concurrency of one batch iteration

JavaScript async semantics relevant to lines 417–461:
`batchPromises.push(loadNFT(i))` *calls* `loadNFT(i)` — an async
function invocation executes synchronously up to its first `await`, so
every pushed task has already started (its first statement awaits a
jitter `setTimeout`, so it is suspended but in flight).  The first
suspension of `loadNFTs` itself inside a batch iteration is the first
`await Promise.allSettled(chunk)` of the chunked loop at lines 457–461;
timer and network callbacks only run once the main task suspends, so no
resolver task can complete earlier.  Hence the synchronous event prefix
of one batch iteration is exactly one task start per batch item, in
batch order, with no completions. -/

/-- Scheduler events of the fetch pipeline: a resolver task starting or
completing. -/
inductive FetchEvent where
  | taskStart (tokenId : Nat)
  | taskComplete (tokenId : Nat)
deriving DecidableEq, Repr

/-- Number of tasks in flight (started, not yet completed) after a
trace of events. -/
def inFlight (trace : List FetchEvent) : Nat :=
  trace.foldl
    (fun n e =>
      match e with
      | .taskStart _ => n + 1
      | .taskComplete _ => n - 1)
    0

/-- The synchronous event prefix of one batch iteration: all of the
batch's tasks start (at `batchPromises.push(loadNFT(i))`) before the
first `await` of the chunked loop, and none completes. -/
def batchSyncEvents (batch : List Nat) : List FetchEvent :=
  batch.map FetchEvent.taskStart

theorem inFlight_batchSyncEvents (batch : List Nat) :
    inFlight (batchSyncEvents batch) = batch.length := by
  have haux : ∀ (l : List Nat) (acc : Nat),
      (List.foldl
        (fun n e =>
          match e with
          | FetchEvent.taskStart _ => n + 1
          | FetchEvent.taskComplete _ => n - 1)
        acc (l.map FetchEvent.taskStart)) = acc + l.length := by
    intro l
    induction l with
    | nil => intro acc; simp
    | cons x xs ih =>
      intro acc
      simp only [List.map_cons, List.foldl_cons, ih, List.length_cons]
      omega
  simpa [inFlight, batchSyncEvents] using haux batch 0

/-- C2 — violated by the code: on the first batch of `totalSupply = 12`
(tokens `{12..8}`), all 5 resolver tasks are in flight at the moment the
main task first suspends, although `maxConcurrent = 3`; the chunked
`Promise.allSettled` loop only awaits tasks that were already started
when they were pushed, so it does not delay the start of any group. -/
theorem concurrency_bound_violated :
    (loadNFTsBatches RATE_LIMIT_CONFIG.batchSize 12).headD [] = [12, 11, 10, 9, 8]
    ∧ inFlight (batchSyncEvents
        ((loadNFTsBatches RATE_LIMIT_CONFIG.batchSize 12).headD [])) = 5
    ∧ RATE_LIMIT_CONFIG.maxConcurrent = 3
    ∧ ¬ inFlight (batchSyncEvents
          ((loadNFTsBatches RATE_LIMIT_CONFIG.batchSize 12).headD []))
        ≤ RATE_LIMIT_CONFIG.maxConcurrent := by
  refine ⟨by decide, by decide, rfl, by decide⟩

/-! ## Per-item retry semantics (`loadNFT` closure, lines 421–451) -/

/-- The fields of a caught JS error inspected by the classifier; both
may be absent (`error.message?.includes` uses optional chaining). -/
structure JsError where
  code : Option String
  message : Option String
deriving DecidableEq, Repr

/-- The throttling classification of lines 431–435:
`error.code === "BAD_DATA" || error.message?.includes("Too Many
Requests") || error.message?.includes("429")` (an absent message makes
the optional-chained calls `undefined`, hence falsy). -/
def isThrottlingError (e : JsError) : Bool :=
  e.code == some "BAD_DATA"
  || (match e.message with
      | some m => jsIncludes m "Too Many Requests"
      | none => false)
  || (match e.message with
      | some m => jsIncludes m "429"
      | none => false)

/-- Outcome of one resolution attempt
(`getCachedTokenURI` + `displayNFT`): success with a URI, or a thrown
error. -/
inductive AttemptResult where
  | ok (tokenURI : String)
  | err (e : JsError)
deriving DecidableEq, Repr

/-- Observable outcome of the `loadNFT` closure for one item: how many
resolution attempts ran, how many `retryDelay` sleeps were taken,
whether the item was displayed, and the error (if any) propagating out
of the closure. -/
structure ItemOutcome where
  attempts : Nat
  retryDelayWaits : Nat
  displayed : Bool
  thrown : Option JsError
deriving DecidableEq, Repr

/-- The `loadNFT` async closure (lines 421–451), with the results of
the two possible resolution attempts abstracted as inputs: a first
failure classified as throttling sleeps `retryDelay` and retries once;
a retry failure is logged and dropped; a non-throttling failure is
logged and dropped without retry; nothing is rethrown. -/
def loadNFT (attempt1 attempt2 : AttemptResult) : ItemOutcome :=
  match attempt1 with
  | .ok _ => ⟨1, 0, true, none⟩
  | .err e =>
    if isThrottlingError e then
      match attempt2 with
      | .ok _ => ⟨2, 1, true, none⟩
      | .err _ => ⟨2, 1, false, none⟩
    else ⟨1, 0, false, none⟩

/-- The batch loop builds one independent `loadNFT` task per item
(lines 420–454); each item's outcome depends only on its own attempt
results. -/
def processBatchItems (items : List (Nat × AttemptResult × AttemptResult)) :
    List ItemOutcome :=
  items.map (fun it => loadNFT it.2.1 it.2.2)

/-- C3 — per-item failure handling: no outcome ever carries a thrown
error out of the closure; exactly two attempts run iff the first fails
with a throttling-classified error, and then exactly one `retryDelay`
wait happens and the item is displayed iff the retry succeeds; a
non-throttling first failure makes one attempt, no wait, no display;
and an item's outcome in a batch depends only on that item's own
attempt results (siblings are untouched). -/
theorem retry_once_on_throttle (a1 a2 : AttemptResult) :
    (loadNFT a1 a2).thrown = none
    ∧ ((loadNFT a1 a2).attempts = 2
        ↔ ∃ e, a1 = .err e ∧ isThrottlingError e = true)
    ∧ (∀ e, a1 = .err e → isThrottlingError e = true →
        (loadNFT a1 a2).retryDelayWaits = 1
        ∧ (loadNFT a1 a2).attempts = 2
        ∧ ((loadNFT a1 a2).displayed = true ↔ ∃ u, a2 = .ok u))
    ∧ (∀ e, a1 = .err e → isThrottlingError e = false →
        (loadNFT a1 a2).attempts = 1
        ∧ (loadNFT a1 a2).retryDelayWaits = 0
        ∧ (loadNFT a1 a2).displayed = false)
    ∧ (∀ (items items2 : List (Nat × AttemptResult × AttemptResult)) (j : Nat),
        items[j]? = items2[j]? →
        (processBatchItems items)[j]? = (processBatchItems items2)[j]?) := by
  refine ⟨?_, ?_, ?_, ?_, ?_⟩
  · cases a1 with
    | ok u => rfl
    | err e =>
      by_cases h : isThrottlingError e
      · cases a2 <;> simp [loadNFT, h]
      · simp [loadNFT, h]
  · cases a1 with
    | ok u => simp [loadNFT]
    | err e =>
      by_cases h : isThrottlingError e
      · cases a2 <;> simp [loadNFT, h]
      · simp [loadNFT, h]
  · intro e he h
    subst he
    cases a2 <;> simp [loadNFT, h]
  · intro e he h
    subst he
    simp [loadNFT, h]
  · intro items items2 j h
    simp only [processBatchItems, List.getElem?_map, h]

/-- Witness for C3: a `BAD_DATA` first failure retries exactly once
with one `retryDelay` wait; a non-throttling failure makes a single
attempt. -/
theorem retry_once_on_throttle_witness :
    (loadNFT (.err ⟨some "BAD_DATA", none⟩) (.err ⟨none, some "oops"⟩)).attempts = 2
    ∧ (loadNFT (.err ⟨some "BAD_DATA", none⟩) (.err ⟨none, some "oops"⟩)).retryDelayWaits = 1
    ∧ (loadNFT (.err ⟨none, some "boom"⟩) (.ok "ipfs://u")).attempts = 1 := by
  have h1 := retry_once_on_throttle (.err ⟨some "BAD_DATA", none⟩) (.err ⟨none, some "oops"⟩)
  have h2 := retry_once_on_throttle (.err ⟨none, some "boom"⟩) (.ok "ipfs://u")
  refine ⟨?_, ?_, ?_⟩
  · exact (h1.2.2.1 _ rfl (by decide)).2.1
  · exact (h1.2.2.1 _ rfl (by decide)).1
  · exact (h2.2.2.2.1 _ rfl (by decide)).1

/-! ## Pagination (`UNREVEALED_PAGINATION`,
`displayUnrevealedTablePaginated`, `changePage`; lines 154–159,
822–832, 903–911 and identically 1125–1130, 1678–1688, 1760–1767) -/

/-- The pagination state object. -/
structure UnrevealedPagination where
  itemsPerPage : Nat
  currentPage : Nat
  totalItems : Nat
  data : List CombinedSeed
deriving DecidableEq, Repr

/-- The value `Math.ceil(totalItems / itemsPerPage)` on naturals. -/
def jsCeilPages (totalItems itemsPerPage : Nat) : Nat :=
  (totalItems + itemsPerPage - 1) / itemsPerPage

/-- Source `totalPages` as computed in both `displayUnrevealedTablePaginated`
and `changePage`. -/
def totalPagesOf (st : UnrevealedPagination) : Nat :=
  jsCeilPages st.totalItems st.itemsPerPage

/-- JS `Array.prototype.slice(s, e)` for `0 ≤ s ≤ e`. -/
def jsSlice (l : List α) (s e : Nat) : List α :=
  (l.take e).drop s

/-- Source `currentPageData` of `displayUnrevealedTablePaginated`:
`startIndex = (currentPage - 1) * itemsPerPage`,
`endIndex = Math.min(startIndex + itemsPerPage, totalItems)`,
`data.slice(startIndex, endIndex)`. -/
def currentPageData (st : UnrevealedPagination) : List CombinedSeed :=
  jsSlice st.data ((st.currentPage - 1) * st.itemsPerPage)
    (min ((st.currentPage - 1) * st.itemsPerPage + st.itemsPerPage) st.totalItems)

/-- Source `window.changePage(newPage)`: recomputes `totalPages` and updates
`currentPage` only when `newPage >= 1 && newPage <= totalPages`. -/
def changePage (newPage : Nat) (st : UnrevealedPagination) : UnrevealedPagination :=
  if 1 ≤ newPage ∧ newPage ≤ totalPagesOf st then
    { st with currentPage := newPage }
  else st

/-- C9 — with `totalItems` tracking the stored list and a positive
`itemsPerPage`: `totalPages` is the ceiling of `totalItems /
itemsPerPage` (characterized by its two bounds); the rendered page `p`
is exactly the slice `[(p-1)*itemsPerPage, min(p*itemsPerPage,
totalItems))` of the stored data, with the expected length; and
`changePage` updates the page exactly inside `[1, totalPages]` and is a
no-op outside. -/
theorem pagination_spec (st : UnrevealedPagination)
    (hipp : 0 < st.itemsPerPage) (hlen : st.totalItems = st.data.length)
    (hpage : 1 ≤ st.currentPage) :
    (st.totalItems ≤ st.itemsPerPage * totalPagesOf st
      ∧ st.itemsPerPage * totalPagesOf st < st.totalItems + st.itemsPerPage)
    ∧ currentPageData st
        = jsSlice st.data ((st.currentPage - 1) * st.itemsPerPage)
            (min (st.currentPage * st.itemsPerPage) st.totalItems)
    ∧ (currentPageData st).length
        = min st.itemsPerPage (st.totalItems - (st.currentPage - 1) * st.itemsPerPage)
    ∧ (∀ p, 1 ≤ p → p ≤ totalPagesOf st →
        changePage p st = { st with currentPage := p })
    ∧ (∀ p, ¬ (1 ≤ p ∧ p ≤ totalPagesOf st) → changePage p st = st) := by
  refine ⟨?_, ?_, ?_, ?_, ?_⟩
  · simp only [totalPagesOf, jsCeilPages]
    have hdm := Nat.div_add_mod (st.totalItems + st.itemsPerPage - 1) st.itemsPerPage
    obtain ⟨k, hk⟩ : ∃ k,
        st.itemsPerPage * ((st.totalItems + st.itemsPerPage - 1) / st.itemsPerPage) = k :=
      ⟨_, rfl⟩
    obtain ⟨r, hr⟩ : ∃ r, (st.totalItems + st.itemsPerPage - 1) % st.itemsPerPage = r :=
      ⟨_, rfl⟩
    have hmod : r < st.itemsPerPage := hr ▸ Nat.mod_lt _ hipp
    rw [hk, hr] at hdm
    rw [hk]
    omega
  · have heq : (st.currentPage - 1) * st.itemsPerPage + st.itemsPerPage
        = st.currentPage * st.itemsPerPage := by
      calc (st.currentPage - 1) * st.itemsPerPage + st.itemsPerPage
          = (st.currentPage - 1 + 1) * st.itemsPerPage := (Nat.succ_mul _ _).symm
        _ = st.currentPage * st.itemsPerPage := by rw [Nat.sub_add_cancel hpage]
    rw [currentPageData, heq]
  · obtain ⟨s0, hs0⟩ : ∃ s0, (st.currentPage - 1) * st.itemsPerPage = s0 := ⟨_, rfl⟩
    simp only [currentPageData, jsSlice, hs0, List.length_drop, List.length_take, ← hlen]
    omega
  · intro p h1 h2
    simp [changePage, h1, h2]
  · intro p h
    simp [changePage, h]

/-- A 12-record stored state on page 3, `itemsPerPage = 5`. -/
def paginationSample : UnrevealedPagination :=
  ⟨5, 3, 12, (List.range 12).map (fun i => ⟨toString i, i, false, "h", none, none⟩)⟩

/-- Witness for C9: 12 records at 5 per page give 3 pages, page 3 holds
exactly 2 records, and `changePage(0)` / `changePage(4)` are no-ops. -/
theorem pagination_spec_witness :
    totalPagesOf paginationSample = 3
    ∧ (currentPageData paginationSample).length = 2
    ∧ changePage 0 paginationSample = paginationSample
    ∧ changePage 4 paginationSample = paginationSample := by
  have h := pagination_spec paginationSample (by decide) (by decide) (by decide)
  refine ⟨by decide, ?_, ?_, ?_⟩
  · exact (h.2.2.1).trans (by decide)
  · exact h.2.2.2.2 0 (by decide)
  · exact h.2.2.2.2 4 (by decide)

/-! ## Network switching (`switchNetwork`, lines 633–656 and
identically 1506–1529; `NETWORKS` from config.js) -/

/-- One entry of the `NETWORKS` configuration object in config.js. -/
structure NetworkConfig where
  name : String
  chainId : Nat
  rpcUrl : String
  plantoidAddress : String
  blockExplorer : String
  isTestnet : Bool
deriving DecidableEq, Repr

/-- The `NETWORKS` object of config.js: keys `sepolia` and `mainnet`. -/
def NETWORKS : List (String × NetworkConfig) :=
  [("sepolia",
    ⟨"Sepolia Testnet", 11155111,
     "https://sepolia.infura.io/v3/460f40a260564ac4a4f4b3fffb032dad",
     "0x66078a2061A68d5bA6cDdBc81517837dA0C7d7b5",
     "https://sepolia.etherscan.io", true⟩),
   ("mainnet",
    ⟨"Ethereum Mainnet", 1,
     "https://mainnet.infura.io/v3/460f40a260564ac4a4f4b3fffb032dad",
     "0x4073E38f71b2612580E9e381031B0c38B3B4C27E",
     "https://etherscan.io", false⟩)]

/-- The own property names of `Object.prototype`, which every plain
object literal such as `NETWORKS` inherits (the standard methods plus
the Annex-B legacy accessors); every one of their values is truthy
(functions, and the `__proto__` accessor yields the prototype object). -/
def objectPrototypeKeys : List String :=
  ["constructor", "hasOwnProperty", "isPrototypeOf", "propertyIsEnumerable",
   "toLocaleString", "toString", "valueOf", "__proto__",
   "__defineGetter__", "__defineSetter__", "__lookupGetter__", "__lookupSetter__"]

/-- What the property access `NETWORKS[networkKey]` can yield on the
plain-object literal: one of its own configured entries, a (truthy)
value inherited from `Object.prototype`, or `undefined`. -/
inductive NetworksProp where
  | config (c : NetworkConfig)
  | protoInherited
  | absent
deriving DecidableEq, Repr

/-- The property access `NETWORKS[networkKey]`: an own property yields
its configured network; a name absent from the literal still consults
the prototype chain, so every own property name of `Object.prototype`
is a hit; anything else is `undefined`. -/
def getNetworksProp (networks : List (String × NetworkConfig)) (key : String) :
    NetworksProp :=
  match jsMapGet networks key with
  | some c => .config c
  | none =>
    if objectPrototypeKeys.contains key then .protoInherited else .absent

/-- Truthiness of the accessed property: configured entries are objects
and the inherited `Object.prototype` members are functions (or, for
`__proto__`, an object), so only `undefined` is falsy. -/
def networksPropTruthy : NetworksProp → Bool
  | .absent => false
  | _ => true

/-- The module-level mutable state touched by `switchNetwork`.
`storedPreference` — Modelled from the spec: `NETWORK_STORAGE`, the
persisted (localStorage-backed) network preference written by
`NETWORK_STORAGE.set(networkKey)`, lives in a config.js version not
under src/; it is modelled as a state field the call overwrites. -/
structure LoaderState where
  currentNetwork : String
  storedPreference : Option String
  cache : Cache
  pagination : UnrevealedPagination
deriving DecidableEq, Repr

/-- Source `switchNetwork(networkKey)` (lines 633–656): when the guard
`if (!NETWORKS[networkKey])` sees a falsy access it logs an error and
returns `false` before any mutation; a truthy access — a configured
network, or a name inherited from `Object.prototype` — updates the
current network, persists the preference, resets pagination (the cache
is deliberately not cleared), re-initializes the gallery and returns
`true`; `galleryInit` abstracts the external `initializeGallery`. -/
def switchNetwork (networks : List (String × NetworkConfig))
    (galleryInit : LoaderState → LoaderState) (networkKey : String)
    (st : LoaderState) : LoaderState × Bool :=
  if !(networksPropTruthy (getNetworksProp networks networkKey)) then
    (st, false)
  else
    let st1 : LoaderState :=
      { st with
        currentNetwork := networkKey,
        storedPreference := some networkKey,
        pagination :=
          { st.pagination with currentPage := 1, totalItems := 0, data := [] } }
    (galleryInit st1, true)

/-- A concrete loader state (non-empty cache and pagination data) used
by the C10 counterexample and witness. -/
def sampleLoaderState : LoaderState :=
  ⟨"mainnet", some "mainnet",
   [("mainnet_0xc_1", ⟨"ipfs://u", 0, "mainnet", "0xc"⟩)],
   ⟨5, 2, 1, [⟨"s1", 1, false, "h", none, some "0xdead"⟩]⟩⟩

/-- Counterexample to C10 as stated: `"toString"` is not a key of the
`NETWORKS` configuration, yet the guard `!NETWORKS[networkKey]` sees
the truthy inherited `Object.prototype.toString`, so `switchNetwork`
sets the current network to `"toString"`, persists that preference,
clears the stored pagination data, and returns `true` — not the
claimed `false` with no state change. -/
theorem switchNetwork_prototype_counterexample :
    jsMapGet NETWORKS "toString" = none
    ∧ (switchNetwork NETWORKS id "toString" sampleLoaderState).2 = true
    ∧ (switchNetwork NETWORKS id "toString" sampleLoaderState).1.currentNetwork
        = "toString"
    ∧ (switchNetwork NETWORKS id "toString" sampleLoaderState).1.storedPreference
        = some "toString"
    ∧ (switchNetwork NETWORKS id "toString" sampleLoaderState).1.pagination.data = []
    ∧ sampleLoaderState.pagination.data ≠ []
    ∧ switchNetwork NETWORKS id "toString" sampleLoaderState
        ≠ (sampleLoaderState, false) := by
  refine ⟨rfl, rfl, rfl, rfl, rfl, by decide, by decide⟩

/-- C10 (amended) — `switchNetwork` on a key that is neither a key of
the `NETWORKS` configuration nor the name of a property inherited from
`Object.prototype` returns `false` and leaves every piece of state
(current network, persisted preference, URI cache, pagination) exactly
unchanged.  (For an inherited name such as `"toString"` the truthy
prototype hit bypasses the guard and the state is mutated; see the
counterexample.) -/
theorem switchNetwork_invalid_noop (networks : List (String × NetworkConfig))
    (galleryInit : LoaderState → LoaderState) (key : String) (st : LoaderState)
    (h1 : jsMapGet networks key = none)
    (h2 : objectPrototypeKeys.contains key = false) :
    switchNetwork networks galleryInit key st = (st, false)
    ∧ (switchNetwork networks galleryInit key st).1.currentNetwork = st.currentNetwork
    ∧ (switchNetwork networks galleryInit key st).1.storedPreference = st.storedPreference
    ∧ (switchNetwork networks galleryInit key st).1.cache = st.cache
    ∧ (switchNetwork networks galleryInit key st).1.pagination.currentPage
        = st.pagination.currentPage
    ∧ (switchNetwork networks galleryInit key st).1.pagination.totalItems
        = st.pagination.totalItems
    ∧ (switchNetwork networks galleryInit key st).1.pagination.data
        = st.pagination.data := by
  have hguard : getNetworksProp networks key = .absent := by
    unfold getNetworksProp
    rw [h1, h2]
    rfl
  unfold switchNetwork
  rw [hguard]
  exact ⟨rfl, rfl, rfl, rfl, rfl, rfl, rfl⟩

/-- Witness for C10 (amended): the key `"foo"` — neither configured nor
an `Object.prototype` name — leaves the sample state untouched and
yields `false`. -/
theorem switchNetwork_invalid_noop_witness :
    switchNetwork NETWORKS id "foo" sampleLoaderState = (sampleLoaderState, false) :=
  (switchNetwork_invalid_noop NETWORKS id "foo" sampleLoaderState
    (by decide) (by decide)).1

end PlantoidUI
